import Mathlib

/-!
Shallow embedding of the transport/connection layer of the game repository
(`common/src/net/connection.rs`).  Machine integers (`u64`) are modelled as
`Nat` with explicit reduction modulo `2 ^ 64` where the source wraps.  The
`mpsc` message channel is modelled as the list of events sent so far, in send
order.  Worker threads are modelled as step functions: one call corresponds to
one iteration of the worker's loop, with the outcome of the underlying socket
operation supplied as an input.  Panics (`unwrap`, explicit `panic!`) are a
distinguished step outcome.

The frame / packet module (`packet.rs`) is not part of the tree; its
definitions carry `Modelled from the spec:` doc comments and follow the spec's
description of the Frame Codec, Outgoing Packet, and Incoming Packet.
-/

set_option maxRecDepth 8192

namespace Game.Net

/-- `2 ^ 64`, the modulus of the source's `u64` counters. -/
def U64MOD : Nat := 2 ^ 64

/-- Wire frame (`Frame` in `packet.rs`): `Header { id, total_size }` or
`Data { id, payload }`.  Payload bytes are modelled as `List Nat`. -/
inductive Frame
  | header (id total_size : Nat)
  | data (id : Nat) (payload : List Nat)
deriving DecidableEq

/-- `FrameError` from `packet.rs`: `generate_frame` reports `SendDone` once a
packet is fully framed (`connection.rs` line 200). -/
inductive FrameError
  | sendDone
deriving DecidableEq

/-- The `std::io::ErrorKind` values distinguished by the workers. -/
inductive IoErrorKind
  | connectionReset
  | connectionAborted
  | connectionRefused
  | other
deriving DecidableEq

/-- The peer-disconnect class of I/O errors matched at `connection.rs`
lines 184-186 and 247-249. -/
def IoErrorKind.isPeerDisconnect : IoErrorKind → Bool
  | .connectionReset => true
  | .connectionAborted => true
  | .connectionRefused => true
  | .other => false

/-- The net `Error` enum as used by the workers: `Error::NetworkErr(io_err)`
versus any other variant (the (de)serialization errors, discarded at
`connection.rs` lines 196 and 265). -/
inductive NetError
  | networkErr (k : IoErrorKind)
  | otherErr
deriving DecidableEq

/-- `OutgoingPacket` (from `packet.rs`): the serialized message bytes, the
assigned id, whether the Header frame has been produced, and the byte cursor. -/
structure OutgoingPacket where
  bytes : List Nat
  id : Nat
  headerSent : Bool
  cursor : Nat
deriving DecidableEq

/-- `OutgoingPacket::new(bytes, id)` as called from `Connection::send`. -/
def OutgoingPacket.new (bytes : List Nat) (id : Nat) : OutgoingPacket :=
  { bytes := bytes, id := id, headerSent := false, cursor := 0 }

/-- Modelled from the spec: `OutgoingPacket::generate_frame` lives in
`packet.rs`, which is absent from the tree.  Spec §4.2: the packet "returns
the Header frame exactly once (on the first invocation), then successive Data
frames of at most `max_chunk` bytes, advancing the cursor; once the cursor
equals the buffer length, returns `Done`".  The updated packet is returned
alongside the frame (the source mutates in place). -/
def OutgoingPacket.generate_frame (p : OutgoingPacket) (chunk : Nat) :
    Except FrameError (OutgoingPacket × Frame) :=
  if p.headerSent = false then
    .ok ({ p with headerSent := true }, .header p.id p.bytes.length)
  else if p.cursor < p.bytes.length then
    .ok ({ p with cursor := p.cursor + ((p.bytes.drop p.cursor).take chunk).length },
         .data p.id ((p.bytes.drop p.cursor).take chunk))
  else
    .error .sendDone

/-- `IncomingPacket` (from `packet.rs`): the declared total size and the bytes
received so far (the write cursor is `received.length`). -/
structure IncomingPacket where
  total_size : Nat
  received : List Nat
deriving DecidableEq

/-- Modelled from the spec: `IncomingPacket::new(header)` lives in
`packet.rs`, which is absent from the tree.  Spec §4.3: created from a Header
frame, it "owns a pre-sized byte buffer (`total_size`) and a write cursor";
it "fails ... if given a Data frame instead". -/
def IncomingPacket.new (f : Frame) : Option IncomingPacket :=
  match f with
  | .header _ total_size => some { total_size := total_size, received := [] }
  | .data _ _ => none

/-- Modelled from the spec: `IncomingPacket::load_data_frame` lives in
`packet.rs`, which is absent from the tree.  Spec §4.3 (`absorb`): "Each Data
frame for that id appends `payload` at the cursor"; it "returns true exactly
when the buffer is now complete", i.e. the cursor reaches `total_size`.
The updated packet is returned alongside the flag (the source mutates in
place).  A Header frame leaves the packet unchanged. -/
def IncomingPacket.load_data_frame (p : IncomingPacket) (f : Frame) :
    IncomingPacket × Bool :=
  match f with
  | .data _ payload =>
      let p' : IncomingPacket := { p with received := p.received ++ payload }
      (p', decide (p'.received.length = p.total_size))
  | .header _ _ => (p, false)

/-- `IncomingPacket::data()`: the reassembled byte buffer. -/
def IncomingPacket.data (p : IncomingPacket) : List Nat := p.received

/-- The in-flight map `HashMap<u64, IncomingPacket>` modelled as an
association list with at most one entry per key. -/
abbrev PacketMap := List (Nat × IncomingPacket)

/-- `HashMap::get` on the association list. -/
def pmGet? : PacketMap → Nat → Option IncomingPacket
  | [], _ => none
  | (k', v') :: rest, k => if k' = k then some v' else pmGet? rest k

/-- `HashMap::insert` on the association list: replaces an existing entry for
the key, otherwise appends a fresh one. -/
def pmInsert : PacketMap → Nat → IncomingPacket → PacketMap
  | [], k, v => [(k, v)]
  | (k', v') :: rest, k, v =>
      if k' = k then (k, v) :: rest else (k', v') :: pmInsert rest k v

/-- Events on the `mpsc` message channel: `Result<RM, ConnectionError>` where
`ConnectionError` has the single variant `Disconnected`. -/
inductive NetEvent (RM : Type)
  | msg (m : RM)
  | disconnected
deriving DecidableEq

/-- The shared state of one `Connection<RM>`: the in-flight map, the 255
priority lanes (`Vec<VecDeque<OutgoingPacket>>`), the outstanding-packet
counter, the running flag, the next message id, whether the send worker
thread is currently parked (`thread::park` / `unpark`), and the contents of
the message channel (events in send order). -/
structure ConnState (RM : Type) where
  packet_in : PacketMap
  packet_out : List (List OutgoingPacket)
  packet_out_count : Nat
  running : Bool
  next_id : Nat
  sendParked : Bool
  channel : List (NetEvent RM)
deriving DecidableEq

variable {RM : Type}

/-- Lane `i` of the outgoing queues (`packet_out[i]`). -/
def ConnState.lane (s : ConnState RM) (i : Nat) : List OutgoingPacket :=
  s.packet_out.getD i []

/-- `Connection::new_internal`: 255 empty lanes, empty in-flight map, counter
0, running flag true, `next_id` 1, empty channel; no worker is parked yet. -/
def new_internal : ConnState RM :=
  { packet_in := []
    packet_out := List.replicate 255 []
    packet_out_count := 0
    running := true
    next_id := 1
    sendParked := false
    channel := [] }

/-- `Connection::stop` (lines 127-132): stores `false` into the running flag
and sends the `Err(ConnectionError::Disconnected)` sentinel on the message
channel.  Nothing else: in particular the send worker thread is not
unparked. -/
def stop (s : ConnState RM) : ConnState RM :=
  { s with running := false, channel := s.channel ++ [.disconnected] }

/-- The successful path of `Connection::send` (lines 134-145), after
`message.to_bytes()` returned `Ok`: pushes `OutgoingPacket::new(bytes, id)`
onto lane 16, increments `next_id` and `packet_out_count` (both `u64`, so
modulo `2 ^ 64`), and unparks the send worker.  Note that the source never
consults the running flag here. -/
def send_bytes (s : ConnState RM) (bytes : List Nat) : ConnState RM :=
  { s with
    packet_out := s.packet_out.set 16 (s.lane 16 ++ [OutgoingPacket.new bytes s.next_id])
    next_id := (s.next_id + 1) % U64MOD
    packet_out_count := (s.packet_out_count + 1) % U64MOD
    sendParked := false }

/-- `Connection::send` with the message's serialization outcome made explicit:
the source runs `message.to_bytes().unwrap()`, so a rejecting codec
(`to_bytes() = Err`, here `none`) panics the calling thread before anything is
enqueued; `none` is the panic outcome. -/
def send (s : ConnState RM) (mBytes : Option (List Nat)) : Option (ConnState RM) :=
  mBytes.map (send_bytes s)

/-- Outcome of one worker-loop iteration: continue looping with the new state,
park (send worker only), exit the loop (`break 'thread`), or escape with a
panic (`unwrap` on `None`/`Err`, or the explicit `panic!` arms). -/
inductive StepOut (RM : Type)
  | cont (s : ConnState RM)
  | parked (s : ConnState RM)
  | exited (s : ConnState RM)
  | panicked
deriving DecidableEq

/-- The lane scan `for i in 0..255 { if packets[i].len() != 0 { ... } }`:
index of the first non-empty lane. -/
def findLane : List (List OutgoingPacket) → Option Nat
  | [] => none
  | q :: rest => if q.isEmpty then (findLane rest).map (· + 1) else some 0

/-- One iteration of `Connection::send_worker` (lines 161-211).  `tcpRes` is
the outcome of `self.tcp.send(frame)` when a frame is produced.  Returns the
step outcome together with the frame handed to the transport, if any. -/
def send_worker_step (s : ConnState RM) (tcpRes : Except NetError Unit) :
    StepOut RM × Option Frame :=
  if s.running = false then (.exited s, none)
  else if s.packet_out_count = 0 then (.parked { s with sendParked := true }, none)
  else
    match findLane s.packet_out with
    | none => (.cont s, none)
    | some i =>
      match s.lane i with
      | [] => (.cont s, none)
      | p :: qrest =>
        match p.generate_frame 2000 with
        | .ok (p', frame) =>
          let s' : ConnState RM := { s with packet_out := s.packet_out.set i (p' :: qrest) }
          match tcpRes with
          | .ok _ => (.cont s', some frame)
          | .error (.networkErr k) =>
            if k.isPeerDisconnect then
              (.exited { s' with channel := s'.channel ++ [.disconnected] }, some frame)
            else (.panicked, some frame)
          | .error .otherErr => (.cont s', some frame)
        | .error .sendDone =>
          (.cont { s with
                    packet_out := s.packet_out.set i qrest
                    packet_out_count := (s.packet_out_count + (U64MOD - 1)) % U64MOD },
           none)

/-- One iteration of `Connection::recv_worker` (lines 213-270).  `fromBytes`
is `RM::from_bytes` (the message codec, `none` on rejection); `input` is the
outcome of `self.tcp.recv()`. -/
def recv_worker_step (fromBytes : List Nat → Option RM) (s : ConnState RM)
    (input : Except NetError Frame) : StepOut RM :=
  if s.running = false then .exited s
  else
    match input with
    | .ok (.header id total_size) =>
      match IncomingPacket.new (.header id total_size) with
      | some msg => .cont { s with packet_in := pmInsert s.packet_in id msg }
      | none => .panicked
    | .ok (.data id payload) =>
      match pmGet? s.packet_in id with
      | none => .panicked
      | some packet =>
        let r := packet.load_data_frame (.data id payload)
        let s' : ConnState RM := { s with packet_in := pmInsert s.packet_in id r.1 }
        if r.2 then
          match fromBytes r.1.data with
          | some m => .cont { s' with channel := s'.channel ++ [.msg m] }
          | none => .panicked
        else .cont s'
    | .error (.networkErr k) =>
      if k.isPeerDisconnect then
        .exited { s with channel := s.channel ++ [.disconnected] }
      else .panicked
    | .error .otherErr => .cont s

/-- The state carried by a non-panicking step outcome. -/
def StepOut.state? : StepOut RM → Option (ConnState RM)
  | .cont s => some s
  | .parked s => some s
  | .exited s => some s
  | .panicked => none

/-- The id field common to both frame kinds. -/
def Frame.fid : Frame → Nat
  | .header id _ => id
  | .data id _ => id

/-! ### Helper lemmas -/

theorem pmGet?_insert (m : PacketMap) (k : Nat) (v : IncomingPacket) :
    pmGet? (pmInsert m k v) k = some v := by
  induction m with
  | nil => simp [pmInsert, pmGet?]
  | cons hd tl ih =>
    obtain ⟨k', v'⟩ := hd
    by_cases hk : k' = k
    · simp [pmInsert, hk, pmGet?]
    · simp [pmInsert, hk, pmGet?, ih]

theorem pmGet?_insert_ne (m : PacketMap) (k j : Nat) (v : IncomingPacket)
    (hj : j ≠ k) : pmGet? (pmInsert m k v) j = pmGet? m j := by
  have hkj : ¬ k = j := fun h => hj h.symm
  induction m with
  | nil => simp [pmInsert, pmGet?, hkj]
  | cons hd tl ih =>
    obtain ⟨k', v'⟩ := hd
    by_cases hk : k' = k
    · subst hk
      simp [pmInsert, pmGet?, hkj]
    · by_cases hk'j : k' = j <;> simp [pmInsert, hk, pmGet?, hk'j, ih, hj]

theorem findLane_lt_length {l : List (List OutgoingPacket)} {i : Nat}
    (h : findLane l = some i) : i < l.length := by
  induction l generalizing i with
  | nil => simp [findLane] at h
  | cons q rest ih =>
    by_cases hq : q.isEmpty
    · simp only [findLane, hq, if_pos, Option.map_eq_some'] at h
      obtain ⟨i', hi', rfl⟩ := h
      simpa using ih hi'
    · simp only [findLane, hq] at h
      simp at h
      subst h
      simp

theorem findLane_nonempty {l : List (List OutgoingPacket)} {i : Nat}
    (h : findLane l = some i) : l.getD i [] ≠ [] := by
  induction l generalizing i with
  | nil => simp [findLane] at h
  | cons q rest ih =>
    by_cases hq : q.isEmpty
    · simp only [findLane, hq, if_pos, Option.map_eq_some'] at h
      obtain ⟨i', hi', rfl⟩ := h
      simpa using ih hi'
    · simp only [findLane, hq] at h
      simp at h
      subst h
      simpa [List.isEmpty_iff] using hq

theorem findLane_first {l : List (List OutgoingPacket)} {i : Nat}
    (h : findLane l = some i) : ∀ j, j < i → l.getD j [] = [] := by
  induction l generalizing i with
  | nil => simp [findLane] at h
  | cons q rest ih =>
    by_cases hq : q.isEmpty
    · simp only [findLane, hq, if_pos, Option.map_eq_some'] at h
      obtain ⟨i', hi', rfl⟩ := h
      intro j hj
      match j with
      | 0 => simpa [List.isEmpty_iff] using hq
      | j + 1 => exact ih hi' j (by omega)
    · simp only [findLane, hq] at h
      simp at h
      subst h
      intro j hj
      omega

theorem getD_set_self {α : Type} (l : List α) (i : Nat) (q d : α)
    (h : i < l.length) : (l.set i q).getD i d = q := by
  rw [List.getD_eq_getElem?_getD, List.getElem?_set_self (by simpa using h)]
  rfl

theorem sum_map_length_set (l : List (List OutgoingPacket)) :
    ∀ (i : Nat) (q : List OutgoingPacket), i < l.length →
      ((l.set i q).map List.length).sum + (l.getD i []).length =
        (l.map List.length).sum + q.length := by
  induction l with
  | nil => intro i q h; simp at h
  | cons hd tl ih =>
    intro i q h
    match i with
    | 0 => simp [List.set]; omega
    | i + 1 =>
      have := ih i q (by simpa using Nat.lt_of_succ_lt_succ h)
      simp only [List.set, List.map_cons, List.sum_cons, List.getD_cons_succ]
      omega

theorem mod_succ_u64 (a : Nat) : ((a % U64MOD) + 1) % U64MOD = (a + 1) % U64MOD :=
  (Nat.mod_modEq a U64MOD).add_right 1

theorem mod_pred_u64 (a : Nat) (ha : 1 ≤ a) :
    ((a % U64MOD) + (U64MOD - 1)) % U64MOD = (a - 1) % U64MOD := by
  have h2 : a % U64MOD + (U64MOD - 1) ≡ a + (U64MOD - 1) [MOD U64MOD] :=
    (Nat.mod_modEq a U64MOD).add_right _
  have h3 : a + (U64MOD - 1) = (a - 1) + U64MOD := by
    have : 1 ≤ U64MOD := Nat.one_le_two_pow
    omega
  calc (a % U64MOD + (U64MOD - 1)) % U64MOD
      = (a + (U64MOD - 1)) % U64MOD := h2
    _ = ((a - 1) + U64MOD) % U64MOD := by rw [h3]
    _ = (a - 1) % U64MOD := Nat.add_mod_right _ _

/-! ### C1 -/

/-- C1 (counterexample): the receive worker does escape with a panic.  A Data
frame whose id has no in-flight Incoming Packet panics (`packet.unwrap()` at
`connection.rs` line 230), a deserialization failure of a completed payload
panics (`RM::from_bytes(data).unwrap()` at line 237), and an unexpected I/O
error panics (explicit `panic!` at line 261) — none of them is converted into
an error value on the channel. -/
theorem c1_worker_panic_counterexample :
    recv_worker_step (fun _ => some 0) (new_internal : ConnState Nat)
      (.ok (.data 1 [0])) = .panicked ∧
    recv_worker_step (fun _ => (none : Option Nat))
      { (new_internal : ConnState Nat) with packet_in := [(1, ⟨1, []⟩)] }
      (.ok (.data 1 [7])) = .panicked ∧
    recv_worker_step (fun _ => some 0) (new_internal : ConnState Nat)
      (.error (.networkErr .other)) = .panicked :=
  ⟨rfl, rfl, rfl⟩

/-- C1 (amended): on a running Connection the receive worker converts
peer-disconnect I/O errors into a Disconnected event on the message channel,
and discards non-network `(De)Serialize` transport errors leaving the state
(hence the running flag) unchanged; but a Data frame whose id has no in-flight
Incoming Packet, a deserialization failure of a completed payload, and an
unexpected I/O error each escape the worker as a panic instead of being
delivered as error values. -/
theorem c1_recv_worker_error_handling (fromBytes : List Nat → Option RM)
    (s : ConnState RM) (k : IoErrorKind) (hrun : s.running = true) :
    (k.isPeerDisconnect = true →
      recv_worker_step fromBytes s (.error (.networkErr k)) =
        .exited { s with channel := s.channel ++ [.disconnected] }) ∧
    (recv_worker_step fromBytes s (.error .otherErr) = .cont s) ∧
    (∀ id payload, pmGet? s.packet_in id = none →
      recv_worker_step fromBytes s (.ok (.data id payload)) = .panicked) ∧
    (∀ id payload p, pmGet? s.packet_in id = some p →
      (p.load_data_frame (.data id payload)).2 = true →
      fromBytes (p.load_data_frame (.data id payload)).1.data = none →
      recv_worker_step fromBytes s (.ok (.data id payload)) = .panicked) ∧
    (k.isPeerDisconnect = false →
      recv_worker_step fromBytes s (.error (.networkErr k)) = .panicked) := by
  refine ⟨?_, ?_, ?_, ?_, ?_⟩
  · intro hk
    simp [recv_worker_step, hrun, hk]
  · simp [recv_worker_step, hrun]
  · intro id payload hid
    simp [recv_worker_step, hrun, hid]
  · intro id payload p hid hcomp hfb
    simp [recv_worker_step, hrun, hid, hcomp, hfb]
  · intro hk
    simp [recv_worker_step, hrun, hk]

/-- Witness for C1's amended theorem at concrete inputs. -/
theorem c1_recv_worker_error_handling_witness :
    recv_worker_step (fun _ => some 0) (new_internal : ConnState Nat)
        (.error (.networkErr .connectionReset)) =
      .exited { (new_internal : ConnState Nat) with
                  channel := (new_internal : ConnState Nat).channel ++ [.disconnected] } ∧
    recv_worker_step (fun _ => some 0) (new_internal : ConnState Nat)
        (.error .otherErr) = .cont new_internal ∧
    recv_worker_step (fun _ => some 0) (new_internal : ConnState Nat)
        (.ok (.data 1 [0])) = .panicked ∧
    recv_worker_step (fun _ => (none : Option Nat))
        { (new_internal : ConnState Nat) with packet_in := [(1, ⟨1, []⟩)] }
        (.ok (.data 1 [7])) = .panicked ∧
    recv_worker_step (fun _ => some 0) (new_internal : ConnState Nat)
        (.error (.networkErr .other)) = .panicked := by
  have h1 := c1_recv_worker_error_handling (fun _ => some 0)
    (new_internal : ConnState Nat) .connectionReset rfl
  have h2 := c1_recv_worker_error_handling (fun _ => (none : Option Nat))
    { (new_internal : ConnState Nat) with packet_in := [(1, ⟨1, []⟩)] } .other rfl
  have h3 := c1_recv_worker_error_handling (fun _ => some 0)
    (new_internal : ConnState Nat) .other rfl
  exact ⟨h1.1 rfl, h1.2.1, h1.2.2.1 1 [0] rfl,
    h2.2.2.2.1 1 [7] ⟨1, []⟩ rfl rfl rfl, h3.2.2.2.2 rfl⟩

/-! ### C3 -/

/-- C3 (counterexample): `send` on a Connection that is already stopped
(running flag false, i.e. Disconnected) is not a no-op: the packet is enqueued
on lane 16, the outstanding-packet counter becomes 1, and id 1 is consumed
(the next id moves to 2). -/
theorem c3_send_after_stop_counterexample :
    (stop (new_internal : ConnState Nat)).running = false ∧
    ((send_bytes (stop (new_internal : ConnState Nat)) [5]).lane 16).length = 1 ∧
    (send_bytes (stop (new_internal : ConnState Nat)) [5]).packet_out_count = 1 ∧
    (send_bytes (stop (new_internal : ConnState Nat)) [5]).next_id = 2 :=
  ⟨rfl, rfl, rfl, rfl⟩

/-- C3 (amended): `Connection::send` never consults the connection state: even
on a stopped (Disconnected) Connection it appends the Outgoing Packet to lane
16, increments the outstanding-packet counter, and consumes the next id, with
no error logged or reported. -/
theorem c3_send_ignores_disconnected (s : ConnState RM) (bytes : List Nat)
    (_hrun : s.running = false) (hlen : s.packet_out.length = 255) :
    (send_bytes s bytes).lane 16 = s.lane 16 ++ [OutgoingPacket.new bytes s.next_id] ∧
    (send_bytes s bytes).packet_out_count = (s.packet_out_count + 1) % U64MOD ∧
    (send_bytes s bytes).next_id = (s.next_id + 1) % U64MOD := by
  refine ⟨?_, rfl, rfl⟩
  simp only [ConnState.lane, send_bytes]
  exact getD_set_self _ _ _ _ (by omega)

/-- Witness for C3's amended theorem at concrete inputs. -/
theorem c3_send_ignores_disconnected_witness :
    (send_bytes (stop (new_internal : ConnState Nat)) [5]).lane 16 =
      (stop (new_internal : ConnState Nat)).lane 16 ++
        [OutgoingPacket.new [5] (stop (new_internal : ConnState Nat)).next_id] ∧
    (send_bytes (stop (new_internal : ConnState Nat)) [5]).packet_out_count =
      ((stop (new_internal : ConnState Nat)).packet_out_count + 1) % U64MOD ∧
    (send_bytes (stop (new_internal : ConnState Nat)) [5]).next_id =
      ((stop (new_internal : ConnState Nat)).next_id + 1) % U64MOD :=
  c3_send_ignores_disconnected (stop (new_internal : ConnState Nat)) [5] rfl
    (by decide)

/-! ### C5 -/

/-- C5 (counterexample): when the message's codec rejects it
(`to_bytes()` fails, modelled by the `none` argument), `send` panics the
calling thread (`message.to_bytes().unwrap()` at `connection.rs` line 136,
modelled by the `none` result) instead of returning a `SerializationError`
error value. -/
theorem c5_send_serialization_panic_counterexample :
    send (new_internal : ConnState Nat) none = none :=
  rfl

/-- C5 (amended): if the codec rejects the message, `send` panics the calling
thread via `unwrap` before anything is enqueued (so lanes, the
outstanding-packet counter and the next-id counter are indeed untouched, there
being no post-state at all); if the codec accepts, `send` proceeds with the
serialized bytes. -/
theorem c5_send_serialization (s : ConnState RM) :
    send s none = none ∧
    ∀ bytes, send s (some bytes) = some (send_bytes s bytes) :=
  ⟨rfl, fun _ => rfl⟩

/-! ### C7 -/

/-- The state of a fresh Connection whose send worker has parked itself
(reached from `new_internal` by one send-worker iteration with an empty
queue). -/
def parkedInit : ConnState Nat :=
  { new_internal with sendParked := true }

/-- C7 (counterexample): `stop` does set the running flag false and enqueue
the Disconnected sentinel, but it does not unblock a parked send worker: from
the freshly started Connection the send worker parks itself, and after `stop`
it is still parked. -/
theorem c7_stop_leaves_worker_parked_counterexample :
    (send_worker_step (new_internal : ConnState Nat) (.ok ())).1 = .parked parkedInit ∧
    (stop parkedInit).running = false ∧
    (stop parkedInit).sendParked = true ∧
    (stop parkedInit).channel = [.disconnected] :=
  ⟨rfl, rfl, rfl, rfl⟩

/-- C7 (amended): `stop` sets the running flag to false and enqueues a
Disconnected sentinel on the message channel (so a blocked `receive()` call
returns promptly), but it does not unpark the send worker: the parked status
is left exactly as it was, and only a later `send` call unparks the worker. -/
theorem c7_stop_behavior (s : ConnState RM) :
    (stop s).running = false ∧
    (stop s).channel = s.channel ++ [.disconnected] ∧
    (stop s).sendParked = s.sendParked :=
  ⟨rfl, rfl, rfl⟩

/-! ### C4 and C8: the in-flight map -/

/-- A running Connection with one in-flight Incoming Packet: id 7, declared
total size 3, nothing received yet. -/
def sample_inflight : ConnState Nat :=
  { new_internal with packet_in := [(7, ⟨3, []⟩)] }

/-- C4 (counterexample): when the Data frame completing id 7 is absorbed, the
deserialized message is delivered on the channel but the Incoming Packet is
NOT removed from the in-flight map — `recv_worker` never calls `remove`, so
the completed entry is still there. -/
theorem c4_completed_packet_not_removed_counterexample :
    recv_worker_step (fun payload => some payload.length) sample_inflight
        (.ok (.data 7 [1, 2, 3])) =
      .cont { sample_inflight with
                packet_in := [(7, ⟨3, [1, 2, 3]⟩)]
                channel := [.msg 3] } ∧
    pmGet? [(7, (⟨3, [1, 2, 3]⟩ : IncomingPacket))] 7 = some ⟨3, [1, 2, 3]⟩ :=
  ⟨rfl, rfl⟩

/-- C4 (amended): when the Data frame that makes the id's byte count reach
`total_size` is absorbed, the buffer is handed to the message deserializer and
the result is delivered on the channel — but the Incoming Packet is NOT
removed from the in-flight map: the entry for that id remains, now holding the
completed buffer. -/
theorem c4_completion_delivers_but_keeps_entry (fromBytes : List Nat → Option RM)
    (s : ConnState RM) (id : Nat) (payload : List Nat) (p : IncomingPacket) (m : RM)
    (hrun : s.running = true) (hid : pmGet? s.packet_in id = some p)
    (hcomp : (p.load_data_frame (.data id payload)).2 = true)
    (hfb : fromBytes (p.load_data_frame (.data id payload)).1.data = some m) :
    recv_worker_step fromBytes s (.ok (.data id payload)) =
      .cont { s with
        packet_in := pmInsert s.packet_in id (p.load_data_frame (.data id payload)).1
        channel := s.channel ++ [.msg m] } ∧
    pmGet? (pmInsert s.packet_in id (p.load_data_frame (.data id payload)).1) id =
      some (p.load_data_frame (.data id payload)).1 ∧
    (p.load_data_frame (.data id payload)).1.received = p.received ++ payload := by
  refine ⟨?_, pmGet?_insert _ _ _, rfl⟩
  simp [recv_worker_step, hrun, hid, hcomp, hfb]

/-- Witness for C4's amended theorem at concrete inputs. -/
theorem c4_completion_delivers_but_keeps_entry_witness :
    recv_worker_step (fun payload => some payload.length) sample_inflight
        (.ok (.data 7 [1, 2, 3])) =
      .cont { sample_inflight with
        packet_in := pmInsert sample_inflight.packet_in 7
          ((IncomingPacket.load_data_frame ⟨3, []⟩ (.data 7 [1, 2, 3])).1)
        channel := sample_inflight.channel ++ [.msg 3] } ∧
    pmGet? (pmInsert sample_inflight.packet_in 7
        ((IncomingPacket.load_data_frame ⟨3, []⟩ (.data 7 [1, 2, 3])).1)) 7 =
      some ((IncomingPacket.load_data_frame ⟨3, []⟩ (.data 7 [1, 2, 3])).1) ∧
    ((IncomingPacket.load_data_frame ⟨3, []⟩ (.data 7 [1, 2, 3])).1).received =
      [] ++ [1, 2, 3] :=
  c4_completion_delivers_but_keeps_entry (fun payload => some payload.length)
    sample_inflight 7 [1, 2, 3] ⟨3, []⟩ 3 rfl rfl rfl rfl

/-- C8: receiving a second Header frame for an id already in the in-flight map
replaces that id's Incoming Packet with a freshly initialized reassembly
buffer (declared size from the new Header, empty contents), and every other
id's entry is unchanged. -/
theorem c8_duplicate_header_reinitializes (fromBytes : List Nat → Option RM)
    (s : ConnState RM) (id total_size : Nat) (p : IncomingPacket)
    (hrun : s.running = true) (_hin : pmGet? s.packet_in id = some p) :
    recv_worker_step fromBytes s (.ok (.header id total_size)) =
      .cont { s with packet_in := pmInsert s.packet_in id ⟨total_size, []⟩ } ∧
    pmGet? (pmInsert s.packet_in id ⟨total_size, []⟩) id = some ⟨total_size, []⟩ ∧
    ∀ j, j ≠ id →
      pmGet? (pmInsert s.packet_in id ⟨total_size, []⟩) j = pmGet? s.packet_in j := by
  refine ⟨?_, pmGet?_insert _ _ _, fun j hj => pmGet?_insert_ne _ _ _ _ hj⟩
  simp [recv_worker_step, hrun, IncomingPacket.new]

/-- Witness for C8's theorem at concrete inputs (unrelated id instantiated
at 3). -/
theorem c8_duplicate_header_reinitializes_witness :
    recv_worker_step (fun _ => some 0) sample_inflight (.ok (.header 7 5)) =
      .cont { sample_inflight with
                packet_in := pmInsert sample_inflight.packet_in 7 ⟨5, []⟩ } ∧
    pmGet? (pmInsert sample_inflight.packet_in 7 ⟨5, []⟩) 7 = some ⟨5, []⟩ ∧
    pmGet? (pmInsert sample_inflight.packet_in 7 ⟨5, []⟩) 3 =
      pmGet? sample_inflight.packet_in 3 := by
  have h := c8_duplicate_header_reinitializes (fun _ => some 0) sample_inflight
    7 5 ⟨3, []⟩ rfl rfl
  exact ⟨h.1, h.2.1, h.2.2 3 (by decide)⟩

/-! ### C2 -/

/-- A running Connection with one packet enqueued (reached from
`new_internal` by one successful send). -/
def c2_one_packet : ConnState Nat := send_bytes new_internal [9]

/-- `c2_one_packet` after the receive worker observed a peer-reset fault. -/
def c2_after_recv_fault : ConnState Nat :=
  { c2_one_packet with channel := [.disconnected] }

/-- `c2_after_recv_fault` after the send worker also observed a peer-reset
fault: the channel now carries TWO disconnect events, and the running flag is
still true. -/
def c2_after_both_faults : ConnState Nat :=
  { c2_after_recv_fault with
    packet_out := c2_after_recv_fault.packet_out.set 16 [⟨[9], 1, true, 0⟩]
    channel := [.disconnected, .disconnected] }

/-- C2 (counterexample): when both workers observe a peer-reset fault, the
consumer channel receives two disconnect events (not exactly one), and the
Connection never transitions out of the running state (the flag is still
true). -/
theorem c2_double_disconnect_counterexample :
    recv_worker_step (fun _ => some 0) c2_one_packet
        (.error (.networkErr .connectionReset)) = .exited c2_after_recv_fault ∧
    ((send_worker_step c2_after_recv_fault
          (.error (.networkErr .connectionReset))).1.state?.map
        (fun s => (s.channel, s.running))) =
      some ([.disconnected, .disconnected], true) :=
  ⟨rfl, rfl⟩

/-- C2 (amended): each worker that observes a peer-disconnect class I/O error
appends its own Disconnected event to the message channel and exits its own
loop; the running flag is left unchanged (still true), so nothing stops the
other side, and if both workers observe the fault each delivers a disconnect
event (two in total). -/
theorem c2_worker_disconnect_behavior (fromBytes : List Nat → Option RM)
    (s : ConnState RM) (k : IoErrorKind)
    (hrun : s.running = true) (hk : k.isPeerDisconnect = true) :
    recv_worker_step fromBytes s (.error (.networkErr k)) =
      .exited { s with channel := s.channel ++ [.disconnected] } ∧
    (∀ s', (send_worker_step s (.error (.networkErr k))).1 = .exited s' →
      s'.running = true ∧ s'.channel = s.channel ++ [.disconnected]) := by
  constructor
  · simp [recv_worker_step, hrun, hk]
  · intro s' hs'
    simp only [send_worker_step, hrun] at hs'
    by_cases hc : s.packet_out_count = 0
    · simp [hc] at hs'
    · simp only [hc] at hs'
      cases hfl : findLane s.packet_out with
      | none => simp [hfl] at hs'
      | some i =>
        simp only [hfl] at hs'
        cases hlane : s.lane i with
        | nil => simp [hlane] at hs'
        | cons p qrest =>
          simp only [hlane] at hs'
          cases hgen : p.generate_frame 2000 with
          | ok pf =>
            simp only [hgen, hk] at hs'
            simp at hs'
            subst hs'
            exact ⟨rfl, rfl⟩
          | error e =>
            cases e
            simp [hgen] at hs'

/-- Witness for C2's amended theorem at concrete inputs. -/
theorem c2_worker_disconnect_behavior_witness :
    recv_worker_step (fun _ => some 0) c2_one_packet
        (.error (.networkErr .connectionReset)) =
      .exited { c2_one_packet with
                  channel := c2_one_packet.channel ++ [.disconnected] } ∧
    c2_after_both_faults.running = true ∧
    c2_after_both_faults.channel = c2_after_recv_fault.channel ++ [.disconnected] := by
  have h1 := c2_worker_disconnect_behavior (fun _ => some 0) c2_one_packet
    .connectionReset rfl rfl
  have h2 := c2_worker_disconnect_behavior (fun _ => some 0) c2_after_recv_fault
    .connectionReset rfl rfl
  exact ⟨h1.1, h2.2 c2_after_both_faults rfl⟩

/-! ### C6 -/

theorem generate_frame_fid (p : OutgoingPacket) (chunk : Nat)
    (p' : OutgoingPacket) (fr : Frame)
    (h : p.generate_frame chunk = .ok (p', fr)) : fr.fid = p.id := by
  unfold OutgoingPacket.generate_frame at h
  by_cases h1 : p.headerSent = false
  · simp [h1] at h
    simp [← h.2, Frame.fid]
  · simp only [h1, if_false] at h
    by_cases h2 : p.cursor < p.bytes.length
    · simp [h2] at h
      simp [← h.2, Frame.fid]
    · simp [h1, h2] at h

theorem generate_frame_payload_le (p : OutgoingPacket) (chunk : Nat)
    (p' : OutgoingPacket) (id : Nat) (payload : List Nat)
    (h : p.generate_frame chunk = .ok (p', .data id payload)) :
    payload.length ≤ chunk := by
  unfold OutgoingPacket.generate_frame at h
  by_cases h1 : p.headerSent = false
  · simp [h1] at h
  · simp only [h1, if_false] at h
    by_cases h2 : p.cursor < p.bytes.length
    · simp [h2] at h
      have := h.2.2
      calc payload.length = ((p.bytes.drop p.cursor).take chunk).length := by rw [this]
        _ ≤ chunk := by simp [List.length_take]
    · simp [h1, h2] at h

/-- C6: on a send-worker iteration of a running Connection with at least one
non-empty lane, every lane below the selected index `i` is empty, lane `i` is
non-empty, the frame handed to the transport (if any) is exactly the one the
head packet of lane `i` generates with a 2000-byte chunk bound and carries
that packet's id, and any Data frame emitted carries at most 2000 bytes of
payload. -/
theorem c6_lane_priority_and_chunk (s : ConnState RM)
    (tcpRes : Except NetError Unit) (i : Nat)
    (hrun : s.running = true) (hc : s.packet_out_count ≠ 0)
    (hf : findLane s.packet_out = some i) :
    (∀ j, j < i → s.lane j = []) ∧
    s.lane i ≠ [] ∧
    (∀ p rest, s.lane i = p :: rest →
      ((send_worker_step s tcpRes).2 =
        (match p.generate_frame 2000 with
          | .ok pf => some pf.2
          | .error _ => none)) ∧
      (∀ fr, (send_worker_step s tcpRes).2 = some fr → fr.fid = p.id) ∧
      (∀ id payload, (send_worker_step s tcpRes).2 = some (.data id payload) →
        payload.length ≤ 2000)) := by
  refine ⟨fun j hj => findLane_first hf j hj, findLane_nonempty hf, ?_⟩
  intro p rest hlane
  have hstep : (send_worker_step s tcpRes).2 =
      (match p.generate_frame 2000 with
        | .ok pf => some pf.2
        | .error _ => none) := by
    simp only [send_worker_step, hrun]
    simp only [hc, if_false, Bool.true_eq_false, if_neg, ite_false]
    simp only [hf, hlane]
    cases hgen : p.generate_frame 2000 with
    | ok pf =>
      cases tcpRes with
      | ok u => simp [hgen]
      | error e =>
        cases e with
        | networkErr k => by_cases hk : k.isPeerDisconnect <;> simp [hgen, hk]
        | otherErr => simp [hgen]
    | error e => cases e; simp [hgen]
  refine ⟨hstep, ?_, ?_⟩
  · intro fr hfr
    rw [hstep] at hfr
    cases hgen : p.generate_frame 2000 with
    | ok pf =>
      obtain ⟨p', frame⟩ := pf
      rw [hgen] at hfr
      simp at hfr
      subst hfr
      exact generate_frame_fid p 2000 p' _ hgen
    | error e => rw [hgen] at hfr; simp at hfr
  · intro id payload hfr
    rw [hstep] at hfr
    cases hgen : p.generate_frame 2000 with
    | ok pf =>
      obtain ⟨p', frame⟩ := pf
      rw [hgen] at hfr
      simp at hfr
      subst hfr
      exact generate_frame_payload_le p 2000 p' id payload hgen
    | error e => rw [hgen] at hfr; simp at hfr

/-- A running Connection whose single lane-16 packet has already emitted its
Header frame (so the next frame is a Data frame). -/
def c6_data_state : ConnState Nat :=
  { c2_one_packet with
    packet_out := (new_internal : ConnState Nat).packet_out.set 16 [⟨[9], 1, true, 0⟩] }

/-- Witness for C6's theorem at concrete inputs: the Header-first scenario and
a Data-frame scenario with its payload bound. -/
theorem c6_lane_priority_and_chunk_witness :
    c2_one_packet.lane 3 = [] ∧
    c2_one_packet.lane 16 ≠ [] ∧
    (send_worker_step c2_one_packet (.ok ())).2 =
      (match (OutgoingPacket.new [9] 1).generate_frame 2000 with
        | .ok pf => some pf.2
        | .error _ => none) ∧
    (Frame.header 1 1).fid = (OutgoingPacket.new [9] 1).id ∧
    (send_worker_step c6_data_state (.ok ())).2 = some (.data 1 [9]) ∧
    [9].length ≤ 2000 := by
  have h1 := c6_lane_priority_and_chunk c2_one_packet (.ok ()) 16 rfl
    (by decide) (by decide)
  have h2 := c6_lane_priority_and_chunk c6_data_state (.ok ()) 16 rfl
    (by decide) (by decide)
  have h1c := h1.2.2 (OutgoingPacket.new [9] 1) [] rfl
  have h2c := h2.2.2 ⟨[9], 1, true, 0⟩ [] rfl
  exact ⟨h1.1 3 (by decide), h1.2.1, h1c.1, h1c.2.1 (.header 1 1) rfl,
    (by decide), h2c.2.2 1 [9] (by decide)⟩

/-! ### C9 -/

/-- A sequence of successful `send` calls, in call order. -/
def sendSeq (s : ConnState RM) : List (List Nat) → ConnState RM
  | [] => s
  | b :: rest => sendSeq (send_bytes s b) rest

/-- The ids of the Outgoing Packets sitting in lane 16 (the lane `send`
uses), in queue order. -/
def laneIds (s : ConnState RM) : List Nat := (s.lane 16).map OutgoingPacket.id

theorem U64MOD_eq : U64MOD = 18446744073709551616 := by norm_num [U64MOD]

theorem send_bytes_lane16 (s : ConnState RM) (b : List Nat)
    (hlen : s.packet_out.length = 255) :
    (send_bytes s b).lane 16 = s.lane 16 ++ [OutgoingPacket.new b s.next_id] := by
  simp only [ConnState.lane, send_bytes]
  exact getD_set_self _ _ _ _ (by omega)

theorem sendSeq_laneIds (msgs : List (List Nat)) :
    ∀ s : ConnState RM, s.packet_out.length = 255 →
      s.next_id + msgs.length ≤ U64MOD →
      laneIds (sendSeq s msgs) = laneIds s ++ List.range' s.next_id msgs.length := by
  induction msgs with
  | nil => intro s _ _; simp [sendSeq]
  | cons b rest ih =>
    intro s hlen hbound
    have hlid : laneIds (send_bytes s b) = laneIds s ++ [s.next_id] := by
      simp [laneIds, send_bytes_lane16 s b hlen, OutgoingPacket.new]
    have hlen' : (send_bytes s b).packet_out.length = 255 := by
      simp [send_bytes, hlen]
    rcases rest with _ | ⟨r, rs⟩
    · show laneIds (send_bytes s b) = laneIds s ++ List.range' s.next_id 1
      rw [hlid, List.range'_succ]
      simp
    · have hni : (send_bytes s b).next_id = s.next_id + 1 := by
        have h1 : s.next_id + 1 < U64MOD := by
          simp only [List.length_cons] at hbound
          omega
        simp [send_bytes, Nat.mod_eq_of_lt h1]
      have hb' : (send_bytes s b).next_id + (r :: rs).length ≤ U64MOD := by
        rw [hni]
        simp only [List.length_cons] at hbound ⊢
        omega
      have := ih (send_bytes s b) hlen' hb'
      show laneIds (sendSeq (send_bytes s b) (r :: rs)) = _
      rw [this, hlid, hni, List.length_cons, List.range'_succ, List.append_assoc]
      rfl

/-- C9: for every sequence of fewer than `2 ^ 64` successful sends on a fresh
Connection, the ids assigned to the resulting Outgoing Packets (read off lane
16 in enqueue order) are exactly `1, 2, 3, ...` in call order, and no id is
repeated. -/
theorem c9_ids_sequential (msgs : List (List Nat)) (h : msgs.length < U64MOD) :
    laneIds (sendSeq (new_internal : ConnState RM) msgs) =
      List.range' 1 msgs.length ∧
    (laneIds (sendSeq (new_internal : ConnState RM) msgs)).Nodup := by
  have h0 := sendSeq_laneIds msgs (new_internal : ConnState RM)
    (by simp [new_internal]) (by rw [U64MOD_eq] at h ⊢; show 1 + msgs.length ≤ _; omega)
  have h1 : laneIds (new_internal : ConnState RM) = [] := rfl
  rw [h1, List.nil_append] at h0
  rw [h0]
  exact ⟨rfl, List.nodup_range' _ _⟩

/-- Witness for C9's theorem at a concrete three-send sequence. -/
theorem c9_ids_sequential_witness :
    laneIds (sendSeq (new_internal : ConnState Nat) [[1], [2, 3], []]) =
      List.range' 1 3 ∧
    (laneIds (sendSeq (new_internal : ConnState Nat) [[1], [2, 3], []])).Nodup := by
  have h := @c9_ids_sequential Nat [[1], [2, 3], []] (by decide)
  simpa using h

/-! ### C10 -/

/-- States reachable from a fresh Connection by any interleaving of
(successful) `send` calls, `stop` calls, and send-worker iterations with
arbitrary transport outcomes. -/
inductive Reach : ConnState RM → Prop
  | init : Reach new_internal
  | send (s : ConnState RM) (b : List Nat) : Reach s → Reach (send_bytes s b)
  | stopCall (s : ConnState RM) : Reach s → Reach (stop s)
  | worker (s : ConnState RM) (r : Except NetError Unit) (s' : ConnState RM) :
      Reach s → (send_worker_step s r).1.state? = some s' → Reach s'

/-- Total number of Outgoing Packets across all lanes. -/
def totalOut (s : ConnState RM) : Nat := (s.packet_out.map List.length).sum

theorem send_worker_step_inv (s : ConnState RM) (r : Except NetError Unit)
    (s' : ConnState RM)
    (hlen : s.packet_out.length = 255)
    (hcnt : s.packet_out_count = totalOut s % U64MOD)
    (hstep : (send_worker_step s r).1.state? = some s') :
    s'.packet_out.length = 255 ∧ s'.packet_out_count = totalOut s' % U64MOD := by
  simp only [send_worker_step] at hstep
  by_cases hrun : s.running = false
  · simp [hrun, StepOut.state?] at hstep
    subst hstep
    exact ⟨hlen, hcnt⟩
  · simp only [hrun, if_false] at hstep
    by_cases hc : s.packet_out_count = 0
    · simp [hc, StepOut.state?] at hstep
      subst hstep
      refine ⟨hlen, ?_⟩
      show (0 : Nat) = totalOut s % U64MOD
      rw [← hc]
      exact hcnt
    · simp only [hc, if_false] at hstep
      cases hfl : findLane s.packet_out with
      | none =>
        simp [hfl, StepOut.state?] at hstep
        subst hstep
        exact ⟨hlen, hcnt⟩
      | some i =>
        have hi : i < s.packet_out.length := findLane_lt_length hfl
        simp only [hfl] at hstep
        cases hlane : s.lane i with
        | nil =>
          simp [hlane, StepOut.state?] at hstep
          subst hstep
          exact ⟨hlen, hcnt⟩
        | cons p qrest =>
          simp only [hlane] at hstep
          have hgd : s.packet_out.getD i [] = p :: qrest := hlane
          cases hgen : p.generate_frame 2000 with
          | ok pf =>
            have hsum := sum_map_length_set s.packet_out i (pf.1 :: qrest) hi
            rw [hgd] at hsum
            have htot : ((s.packet_out.set i (pf.1 :: qrest)).map List.length).sum =
                totalOut s := by
              simp only [totalOut]
              simp only [List.length_cons] at hsum
              omega
            simp only [hgen] at hstep
            cases r with
            | ok u =>
              simp [StepOut.state?] at hstep
              subst hstep
              refine ⟨by simpa [hlen] using hi, ?_⟩
              show s.packet_out_count =
                ((s.packet_out.set i (pf.1 :: qrest)).map List.length).sum % U64MOD
              rw [htot]
              exact hcnt
            | error e =>
              cases e with
              | networkErr k =>
                by_cases hk : k.isPeerDisconnect
                · simp [hk, StepOut.state?] at hstep
                  subst hstep
                  refine ⟨by simpa [hlen] using hi, ?_⟩
                  show s.packet_out_count =
                    ((s.packet_out.set i (pf.1 :: qrest)).map List.length).sum % U64MOD
                  rw [htot]
                  exact hcnt
                · simp [hk, StepOut.state?] at hstep
              | otherErr =>
                simp [StepOut.state?] at hstep
                subst hstep
                refine ⟨by simpa [hlen] using hi, ?_⟩
                show s.packet_out_count =
                  ((s.packet_out.set i (pf.1 :: qrest)).map List.length).sum % U64MOD
                rw [htot]
                exact hcnt
          | error e =>
            cases e
            have hsum := sum_map_length_set s.packet_out i qrest hi
            rw [hgd] at hsum
            have htot : totalOut s =
                ((s.packet_out.set i qrest).map List.length).sum + 1 := by
              simp only [totalOut]
              simp only [List.length_cons] at hsum
              omega
            simp only [hgen, StepOut.state?] at hstep
            simp at hstep
            subst hstep
            refine ⟨by simpa [hlen] using hi, ?_⟩
            show (s.packet_out_count + (U64MOD - 1)) % U64MOD =
              ((s.packet_out.set i qrest).map List.length).sum % U64MOD
            rw [hcnt, mod_pred_u64 (totalOut s) (by omega)]
            rw [htot]
            simp

theorem reach_inv (s : ConnState RM) (h : Reach s) :
    s.packet_out.length = 255 ∧ s.packet_out_count = totalOut s % U64MOD := by
  induction h with
  | init =>
    constructor
    · simp [new_internal]
    · simp [new_internal, totalOut]
  | send s b hr ih =>
    obtain ⟨ihlen, ihcnt⟩ := ih
    constructor
    · simp [send_bytes, ihlen]
    · have h16 : 16 < s.packet_out.length := by omega
      have hsum := sum_map_length_set s.packet_out 16
        (s.packet_out.getD 16 [] ++ [OutgoingPacket.new b s.next_id]) h16
      have htot : totalOut (send_bytes s b) = totalOut s + 1 := by
        simp only [totalOut, send_bytes, ConnState.lane]
        simp only [List.length_append, List.length_cons, List.length_nil] at hsum
        omega
      show (s.packet_out_count + 1) % U64MOD = _
      rw [ihcnt, mod_succ_u64, htot]
  | stopCall s hr ih =>
    obtain ⟨ihlen, ihcnt⟩ := ih
    exact ⟨ihlen, ihcnt⟩
  | worker s r s' hr hstep ih =>
    exact send_worker_step_inv s r s' ih.1 ih.2 hstep

/-- C10: in every state reachable by any interleaving of send calls, stop
calls and send-worker steps, `packet_out_count` equals (modulo `2 ^ 64`) the
total number of Outgoing Packets across all 255 lanes, and equals it exactly
whenever that total is below `2 ^ 64`: `new_internal` establishes both at
zero, `send` increments the counter exactly when it enqueues one packet, and
the worker decrements it exactly when it pops one finished packet. -/
theorem c10_count_matches_lanes (s : ConnState RM) (h : Reach s) :
    s.packet_out_count = totalOut s % U64MOD ∧
    (totalOut s < U64MOD → s.packet_out_count = totalOut s) := by
  have hinv := reach_inv s h
  exact ⟨hinv.2, fun hb => hinv.2.trans (Nat.mod_eq_of_lt hb)⟩

/-- Witness for C10's theorem at a concrete reachable state (one send on a
fresh Connection). -/
theorem c10_count_matches_lanes_witness :
    (send_bytes (new_internal : ConnState Nat) [1, 2]).packet_out_count =
      totalOut (send_bytes (new_internal : ConnState Nat) [1, 2]) % U64MOD ∧
    (send_bytes (new_internal : ConnState Nat) [1, 2]).packet_out_count =
      totalOut (send_bytes (new_internal : ConnState Nat) [1, 2]) := by
  have h := c10_count_matches_lanes (send_bytes (new_internal : ConnState Nat) [1, 2])
    (Reach.send _ _ Reach.init)
  exact ⟨h.1, h.2 (by decide)⟩

end Game.Net
